import Mathlib

/-!
Verification of the drone-mission media ingestion pipeline
(`importa_foto_postgis_v6_Vid_Print_1Tab.py`).

The Python source is shallowly embedded below.  Caught exception paths
(file open / parse / subprocess / JSON failures) are modelled by an
`Except String _` input: `.error` stands for any raised-and-caught
exception, `.ok` for a successful read.  Machine floats are modelled by
exact rationals.  Python `\d` is modelled by ASCII digits and `lower()`
by ASCII lowering, which agree on every extension and tag the program
inspects.
-/

namespace SGDB

/-! ### Photo extractor: `extract_gps_metadata_from_photo` -/

/-- An image as the `exif` library presents it: `has_exif`, optional GPS
attributes (`hasattr` false ↔ `none`), and hemisphere reference characters
(`none` means the attribute access raises, which the extractor catches). -/
structure ExifImage where
  has_exif : Bool
  gps_latitude : Option (ℚ × ℚ × ℚ)
  gps_longitude : Option (ℚ × ℚ × ℚ)
  gps_altitude : Option ℚ
  gps_latitude_ref : Option Char
  gps_longitude_ref : Option Char
deriving DecidableEq

/-- `extract_gps_metadata_from_photo`: converts DMS triples to signed decimal
degrees; every failure path of the Python `try` block yields `none`. -/
def extract_gps_metadata_from_photo (file : Except String ExifImage) :
    Option (ℚ × ℚ × Option ℚ) :=
  match file with
  | .error _ => none
  | .ok img =>
    if img.has_exif then
      match img.gps_latitude, img.gps_longitude with
      | some lat, some lon =>
        match img.gps_latitude_ref, img.gps_longitude_ref with
        | some latRef, some lonRef =>
          let lat_sign : ℚ := if latRef = 'N' then 1 else -1
          let lon_sign : ℚ := if lonRef = 'E' then 1 else -1
          let lat_dec := lat_sign * (lat.1 + lat.2.1 / 60 + lat.2.2 / 3600)
          let lon_dec := lon_sign * (lon.1 + lon.2.1 / 60 + lon.2.2 / 3600)
          some (lat_dec, lon_dec, img.gps_altitude)
        | _, _ => none
      | _, _ => none
    else none

/-! ### Video extractor: `extract_gps_metadata_from_video`

The regex `([+-]\d+\.\d+)([+-]\d+\.\d+)` under `re.match` is anchored at the
start and is deterministic (digits and `.` and the signs are pairwise
disjoint character classes), so it is embedded as a maximal-munch parser. -/

/-- Maximal run of ASCII digits at the head of the list, with the rest. -/
def takeDigits : List Char → List Char × List Char
  | [] => ([], [])
  | c :: cs =>
    if c.isDigit then (c :: (takeDigits cs).1, (takeDigits cs).2)
    else ([], c :: cs)

/-- Value of a digit string, as for Python `int`/`float` parsing. -/
def digitsToNat (ds : List Char) : ℕ :=
  ds.foldl (fun n c => 10 * n + (c.toNat - ('0').toNat)) 0

/-- Value of `<ip>.<fp>` as a rational, as `float` would produce. -/
def decValue (ip fp : List Char) : ℚ :=
  (digitsToNat ip : ℚ) + (digitsToNat fp : ℚ) / ((10 : ℚ) ^ fp.length)

/-- One `[+-]\d+\.\d+` group: its value and the unconsumed rest. -/
def parseSignedDecimal (s : List Char) : Option (ℚ × List Char) :=
  match s with
  | [] => none
  | c :: cs =>
    if c = '+' ∨ c = '-' then
      if (takeDigits cs).1 = [] then none
      else
        match (takeDigits cs).2 with
        | '.' :: r2 =>
          if (takeDigits r2).1 = [] then none
          else some ((if c = '-' then -decValue (takeDigits cs).1 (takeDigits r2).1
                      else decValue (takeDigits cs).1 (takeDigits r2).1),
                     (takeDigits r2).2)
        | _ => none
    else none

/-- `re.match(r'([+-]\d+\.\d+)([+-]\d+\.\d+)', location)` with `float` applied
to the two captures; trailing characters are not anchored away. -/
def matchLocation (s : List Char) : Option (ℚ × ℚ) :=
  match parseSignedDecimal s with
  | none => none
  | some (lat, r) =>
    match parseSignedDecimal r with
    | none => none
    | some (lon, _) => some (lat, lon)

/-- The `format` section of the ffprobe JSON output: its optional `tags`
dictionary (`'tags' in metadata['format']`), as a key/value list. -/
structure FormatSection where
  tags : Option (List (String × String))
deriving DecidableEq

/-- Python `key in dict` / `dict[key]` on the tags dictionary. -/
def lookupTag (ts : List (String × String)) (k : String) : Option String :=
  (ts.find? (fun p => p.1 == k)).map (fun p => p.2)

/-- `extract_gps_metadata_from_video`: `.error` covers a raised subprocess
error, a JSON decode error, or the `metadata['format']` key error, all caught
by the Python `except`. -/
def extract_gps_metadata_from_video (probe : Except String FormatSection) :
    Option (ℚ × ℚ × Option ℚ) :=
  match probe with
  | .error _ => none
  | .ok fmt =>
    match fmt.tags with
    | none => none
    | some ts =>
      match lookupTag ts ("location") with
      | none => none
      | some loc =>
        match matchLocation loc.data with
        | none => none
        | some (lat, lon) => some (lat, lon, none)

/-! ### Walker and dispatch: the loop body of `process_mission_media` -/

/-- Python `lower()` restricted to ASCII, as used on file names. -/
def pyLower (s : String) : String := String.mk (s.data.map Char.toLower)

/-- Python `endswith` on one suffix. -/
def pyEndsWith (s suffix : String) : Bool := suffix.data.isSuffixOf s.data

/-- Python `startswith` on one candidate. -/
def pyStartsWith (s t : String) : Bool := t.data.isPrefixOf s.data

def photoExts : List String := [".jpg", ".jpeg", ".png"]

def videoExts : List String := [".mp4", ".mov", ".avi", ".mkv"]

/-- `file.lower().endswith(('.jpg', '.jpeg', '.png'))`. -/
def isPhotoFile (file : String) : Bool :=
  photoExts.any (fun e => pyEndsWith (pyLower file) e)

/-- `file.lower().endswith(('.mp4', '.mov', '.avi', '.mkv'))`. -/
def isVideoFile (file : String) : Bool :=
  videoExts.any (fun e => pyEndsWith (pyLower file) e)

inductive MediaClass
  | photo
  | video
  | ignored
deriving DecidableEq

/-- The `if`/`elif`/implicit-else extension dispatch of the walker loop. -/
def classify (file : String) : MediaClass :=
  if isPhotoFile file then .photo
  else if isVideoFile file then .video
  else .ignored

/-- One tuple appended to `data` in `process_mission_media`. -/
structure MediaRecord where
  full_path : String
  file_name : String
  media_type : String
  lat : ℚ
  lon : ℚ
  alt : Option ℚ
  mission_id : Int
deriving DecidableEq

/-- An entry of `os.listdir(base_folder)` together with its
`os.path.isdir` status. -/
structure DirEntry where
  name : String
  isDir : Bool
deriving DecidableEq

/-- The environment the script reads through: file contents (as the photo
library or ffprobe would deliver them), `os.walk`, and `os.listdir` with
`os.path.isdir`.  All pure: the filesystem does not change during a run. -/
structure Env where
  readPhoto : String → Except String ExifImage
  probeVideo : String → Except String FormatSection
  walk : String → List (String × String)
  listdir : String → List DirEntry

/-- The walker loop body for one file: classify by extension, dispatch to
the matching extractor, build the `data` tuple when metadata is non-empty. -/
def processFile (env : Env) (mission_id : Int) (root file : String) :
    Option MediaRecord :=
  let full_path := root ++ "/" ++ file
  match classify file with
  | .photo =>
    match extract_gps_metadata_from_photo (env.readPhoto full_path) with
    | some (lat, lon, alt) => some ⟨full_path, file, "photo", lat, lon, alt, mission_id⟩
    | none => none
  | .video =>
    match extract_gps_metadata_from_video (env.probeVideo full_path) with
    | some (lat, lon, alt) => some ⟨full_path, file, "video", lat, lon, alt, mission_id⟩
    | none => none
  | .ignored => none

/-- The whole `os.walk` loop: the accumulated `data` list for a mission. -/
def walkFiles (env : Env) (mission_id : Int) (files : List (String × String)) :
    List MediaRecord :=
  files.filterMap (fun rf => processFile env mission_id rf.1 rf.2)

/-! ### Database model and `process_mission_media` / `process_all` -/

/-- A row of the `drone_mission` table (the serial `id` column is omitted:
no claim mentions it).  `geom` holds the `POINT(lon lat)` coordinates of
the `SRID=4326;POINT({lon} {lat})` literal. -/
structure Row where
  full_path : String
  file_name : String
  media_type : String
  altitude : Option ℚ
  geom : ℚ × ℚ
  mission_id : Int
deriving DecidableEq

/-- The row built from one `data` tuple by the `INSERT` value list. -/
def toRow (r : MediaRecord) : Row :=
  ⟨r.full_path, r.file_name, r.media_type, r.alt, (r.lon, r.lat), r.mission_id⟩

/-- Database state: the `missoes` table as (id, nome) pairs and the
`drone_mission` table as a row list in insertion order. -/
structure DB where
  missoes : List (Int × String)
  drone_mission : List Row
deriving DecidableEq

/-- `SELECT id FROM missoes WHERE nome = %s` with `fetchone()`. -/
def lookupMission (missoes : List (Int × String)) (name : String) : Option Int :=
  (missoes.find? (fun p => p.2 == name)).map (fun p => p.1)

/-- Is a `full_path` already present in `drone_mission`? -/
def pathPresent (table : List Row) (p : String) : Bool :=
  table.any (fun x => x.full_path == p)

/-- `ON CONFLICT (full_path) DO NOTHING` semantics for one row. -/
def insertRow (table : List Row) (r : Row) : List Row :=
  if pathPresent table r.full_path then table else table ++ [r]

/-- The bulk `execute_values` insert: rows in order, each skipped when its
`full_path` conflicts with an earlier row (pre-existing or same batch). -/
def insertRows (table : List Row) (rs : List Row) : List Row :=
  rs.foldl insertRow table

/-- The `data` list accumulated for one mission folder. -/
def missionData (env : Env) (mission_id : Int) (mission_path : String) :
    List MediaRecord :=
  walkFiles env mission_id (env.walk mission_path)

/-- `process_mission_media`: resolve the mission id (raising, as `.error`,
when absent), walk and extract, then issue the single bulk insert only when
`data` is non-empty.  Returns the new state and how many INSERT statements
were issued. -/
def process_mission_media (env : Env) (db : DB) (mission_name mission_path : String) :
    Except String (DB × ℕ) :=
  match lookupMission db.missoes mission_name with
  | none => .error ("Mission " ++ mission_name ++ " not found in the missoes table.")
  | some mission_id =>
    if (missionData env mission_id mission_path).isEmpty then .ok (db, 0)
    else .ok
      ({ db with
         drone_mission :=
           insertRows db.drone_mission
             ((missionData env mission_id mission_path).map toRow) },
       1)

/-- The `os.listdir` filter of `process_all`: directories whose name starts
with the literal "Mission". -/
def missionEntries (entries : List DirEntry) : List DirEntry :=
  entries.filter (fun e => e.isDir && pyStartsWith e.name ("Mission"))

/-- One iteration of the mission loop, dropping the statement count. -/
def missionStep (env : Env) (base : String) (db : DB) (e : DirEntry) :
    Except String DB :=
  (process_mission_media env db e.name (base ++ "/" ++ e.name)).map (fun p => p.1)

/-- The mission loop of `process_all` over an explicit entry list; an
uncaught exception (`.error`) aborts the remaining iterations. -/
def runMissions (env : Env) (base : String) (es : List DirEntry) (db : DB) :
    Except String DB :=
  es.foldlM (missionStep env base) db

/-- `process_all` (connection handling and the fixed table-creation
statement are the external precondition). -/
def process_all (env : Env) (base : String) (db : DB) : Except String DB :=
  runMissions env base (missionEntries (env.listdir base)) db

/-! ### Helper lemmas and concrete witness data -/

theorem decValue_40_1234 : decValue ['4', '0'] ['1', '2', '3', '4'] = 401234 / 10000 := by
  norm_num [decValue, digitsToNat, List.foldl,
    (by decide : ('0').toNat - ('0').toNat = 0), (by decide : ('1').toNat - ('0').toNat = 1),
    (by decide : ('2').toNat - ('0').toNat = 2), (by decide : ('3').toNat - ('0').toNat = 3),
    (by decide : ('4').toNat - ('0').toNat = 4)]

theorem decValue_008_5678 : decValue ['0', '0', '8'] ['5', '6', '7', '8'] = 85678 / 10000 := by
  norm_num [decValue, digitsToNat, List.foldl,
    (by decide : ('0').toNat - ('0').toNat = 0), (by decide : ('5').toNat - ('0').toNat = 5),
    (by decide : ('6').toNat - ('0').toNat = 6), (by decide : ('7').toNat - ('0').toNat = 7),
    (by decide : ('8').toNat - ('0').toNat = 8)]

/-- A concrete EXIF image with full GPS data, for witnesses. -/
def imgW : ExifImage :=
  ⟨true, some (10, 30, 36), some (8, 15, 0), some 120, some ('N'), some ('W')⟩

/-- A concrete image with no EXIF container, for witnesses. -/
def imgNoExif : ExifImage := ⟨false, none, none, none, none, none⟩

/-! ### Claims about the photo extractor -/

/-- Claim C1: for an image whose EXIF metadata has GPS latitude and
longitude DMS triples and hemisphere reference characters, the photo
extractor returns `sign * (deg + min/60 + sec/3600)` for each coordinate,
with sign +1 exactly for reference 'N' (latitude) resp. 'E' (longitude)
and -1 otherwise, and passes the (optional) altitude through unchanged. -/
theorem photo_dms_to_decimal (img : ExifImage) (d m s d2 m2 s2 : ℚ)
    (rlat rlon : Char)
    (h1 : img.has_exif = true)
    (h2 : img.gps_latitude = some (d, m, s))
    (h3 : img.gps_longitude = some (d2, m2, s2))
    (h4 : img.gps_latitude_ref = some rlat)
    (h5 : img.gps_longitude_ref = some rlon) :
    extract_gps_metadata_from_photo (.ok img) =
      some ((if rlat = 'N' then (1 : ℚ) else -1) * (d + m / 60 + s / 3600),
            (if rlon = 'E' then (1 : ℚ) else -1) * (d2 + m2 / 60 + s2 / 3600),
            img.gps_altitude) := by
  simp [extract_gps_metadata_from_photo, h1, h2, h3, h4, h5]

/-- Witness for C1 at a concrete image. -/
theorem photo_dms_to_decimal_witness :
    extract_gps_metadata_from_photo (.ok imgW) =
      some ((if 'N' = 'N' then (1 : ℚ) else -1) * (10 + 30 / 60 + 36 / 3600),
            (if 'W' = 'E' then (1 : ℚ) else -1) * (8 + 15 / 60 + 0 / 3600),
            imgW.gps_altitude) :=
  photo_dms_to_decimal imgW 10 30 36 8 15 0 'N' 'W' rfl rfl rfl rfl rfl

/-- Claim C5: the photo extractor never raises to its caller: an open or
parse failure, a missing EXIF container, or missing GPS attributes all
yield `none`, and the walker keeps processing the remaining files. -/
theorem photo_extract_never_raises :
    (∀ e : String, extract_gps_metadata_from_photo (.error e) = none)
    ∧ (∀ img : ExifImage, img.has_exif = false →
        extract_gps_metadata_from_photo (.ok img) = none)
    ∧ (∀ img : ExifImage, img.gps_latitude = none →
        extract_gps_metadata_from_photo (.ok img) = none)
    ∧ (∀ img : ExifImage, img.gps_longitude = none →
        extract_gps_metadata_from_photo (.ok img) = none)
    ∧ (∀ (env : Env) (mid : Int) (root f : String) (rest : List (String × String)),
        walkFiles env mid ((root, f) :: rest) =
          (processFile env mid root f).toList ++ walkFiles env mid rest) := by
  refine ⟨fun e => rfl, ?_, ?_, ?_, ?_⟩
  · intro img h
    simp [extract_gps_metadata_from_photo, h]
  · intro img h
    cases hb : img.has_exif <;> simp [extract_gps_metadata_from_photo, h, hb]
  · intro img h
    cases hb : img.has_exif <;> cases hl : img.gps_latitude <;>
      simp [extract_gps_metadata_from_photo, h, hb, hl]
  · intro env mid root f rest
    cases hp : processFile env mid root f <;>
      simp [walkFiles, List.filterMap_cons, hp]

/-- Witness for C5: a failing open and a metadata-free image. -/
theorem photo_extract_never_raises_witness :
    extract_gps_metadata_from_photo (.error ("io error")) = none
    ∧ extract_gps_metadata_from_photo (.ok imgNoExif) = none :=
  ⟨photo_extract_never_raises.1 ("io error"),
   photo_extract_never_raises.2.1 imgNoExif rfl⟩

/-! ### Claims about the video extractor -/

/-- Claim C2: on the location tag `"+40.1234-008.5678"` the video extractor
returns latitude 40.1234 and longitude -8.5678 (first capture is latitude,
second longitude), altitude absent; and for every video input, a returned
altitude is always absent. -/
theorem video_location_example_and_alt :
    (extract_gps_metadata_from_video
        (.ok ⟨some [("location", "+40.1234-008.5678")]⟩) =
      some (401234 / 10000, -(85678 / 10000), none))
    ∧ ∀ (probe : Except String FormatSection) (lat lon : ℚ) (alt : Option ℚ),
        extract_gps_metadata_from_video probe = some (lat, lon, alt) → alt = none := by
  constructor
  · have h : extract_gps_metadata_from_video
        (.ok ⟨some [("location", "+40.1234-008.5678")]⟩) =
        some (decValue ['4', '0'] ['1', '2', '3', '4'],
              -decValue ['0', '0', '8'] ['5', '6', '7', '8'], none) := rfl
    rw [h, decValue_40_1234, decValue_008_5678]
  · intro probe lat lon alt h
    cases probe with
    | error e => simp [extract_gps_metadata_from_video] at h
    | ok fmt =>
      cases hts : fmt.tags with
      | none => simp [extract_gps_metadata_from_video, hts] at h
      | some ts =>
        cases hloc : lookupTag ts ("location") with
        | none => simp [extract_gps_metadata_from_video, hts, hloc] at h
        | some loc =>
          cases hm : matchLocation loc.data with
          | none => simp [extract_gps_metadata_from_video, hts, hloc, hm] at h
          | some p =>
            simp [extract_gps_metadata_from_video, hts, hloc, hm] at h
            exact h.2.2.symm

/-- Witness for C2's universally quantified altitude property. -/
theorem video_location_example_and_alt_witness :
    extract_gps_metadata_from_video (.ok ⟨some [("location", "+40.1234-008.5678")]⟩)
      = some (decValue ['4', '0'] ['1', '2', '3', '4'],
              -decValue ['0', '0', '8'] ['5', '6', '7', '8'], none)
    ∧ (none : Option ℚ) = none :=
  ⟨rfl,
   video_location_example_and_alt.2 (.ok ⟨some [("location", "+40.1234-008.5678")]⟩)
     (decValue ['4', '0'] ['1', '2', '3', '4'])
     (-decValue ['0', '0', '8'] ['5', '6', '7', '8']) none rfl⟩

/-- Claim C6: for every video, a caught probing/JSON failure, an absent
tags section, an absent location tag, or a location string not matching
the two-signed-decimal pattern (for example the empty string or a single
number) makes the extractor return `none`; nothing propagates. -/
theorem video_extract_never_raises :
    (∀ e : String, extract_gps_metadata_from_video (.error e) = none)
    ∧ (extract_gps_metadata_from_video (.ok ⟨none⟩) = none)
    ∧ (∀ ts : List (String × String), lookupTag ts ("location") = none →
        extract_gps_metadata_from_video (.ok ⟨some ts⟩) = none)
    ∧ (∀ (ts : List (String × String)) (loc : String),
        lookupTag ts ("location") = some loc → matchLocation loc.data = none →
        extract_gps_metadata_from_video (.ok ⟨some ts⟩) = none)
    ∧ matchLocation ("").data = none
    ∧ matchLocation ("+40.1234").data = none := by
  refine ⟨fun e => rfl, rfl, ?_, ?_, by decide, by decide⟩
  · intro ts h
    simp [extract_gps_metadata_from_video, h]
  · intro ts loc h1 h2
    simp [extract_gps_metadata_from_video, h1, h2]

/-- Witness for C6: missing tag and non-matching tag. -/
theorem video_extract_never_raises_witness :
    extract_gps_metadata_from_video (.ok ⟨some []⟩) = none
    ∧ extract_gps_metadata_from_video (.ok ⟨some [("location", "xyz")]⟩) = none :=
  ⟨video_extract_never_raises.2.2.1 [] rfl,
   video_extract_never_raises.2.2.2.1 [("location", "xyz")] "xyz" rfl (by decide)⟩

/-! ### Claims about the walker dispatch -/

/-- A matched non-empty suffix fixes the last character. -/
theorem pyEndsWith_getLast (s t : String) (h : pyEndsWith s t = true)
    (hne : t.data ≠ []) : s.data.getLast? = t.data.getLast? := by
  rw [pyEndsWith, List.isSuffixOf_iff_suffix] at h
  obtain ⟨u, hu⟩ := h
  rw [← hu]
  exact List.getLast?_append_of_ne_nil u hne

/-- Every photo extension ends in `g`, so a photo-classified (lowered) name
ends in `g`. -/
theorem isPhotoFile_lastChar (f : String) (h : isPhotoFile f = true) :
    (pyLower f).data.getLast? = some 'g' := by
  simp only [isPhotoFile, photoExts, List.any_cons, List.any_nil,
    Bool.or_eq_true, Bool.or_false] at h
  rcases h with h | h | h <;>
    · rw [pyEndsWith_getLast _ _ h (by decide)]
      decide

/-- No name ends in both a video extension and a photo extension: the video
extensions end in `4`, `v`, `i`, the photo ones in `g`. -/
theorem video_not_photo (f : String) (h : isVideoFile f = true) :
    isPhotoFile f = false := by
  by_contra hc
  rw [Bool.not_eq_false] at hc
  have hg := isPhotoFile_lastChar f hc
  simp only [isVideoFile, videoExts, List.any_cons, List.any_nil,
    Bool.or_eq_true, Bool.or_false] at h
  rcases h with h | h | h | h <;>
    · have hv := pyEndsWith_getLast _ _ h (by decide)
      rw [hg] at hv
      exact absurd hv (by decide)

/-- Claim C7: the walker classifies each file by lower-cased extension into
exactly one of photo / video / ignored (jpg, jpeg, png are photos; mp4,
mov, avi, mkv are videos; anything else is ignored and produces no record),
dispatches to the matching extractor, and appends a record exactly when the
dispatched extractor returns a non-empty result. -/
theorem walker_classifies_and_dispatches :
    (∀ f : String, isPhotoFile f = true → classify f = .photo)
    ∧ (∀ f : String, isVideoFile f = true → classify f = .video)
    ∧ (∀ f : String, isPhotoFile f = false → isVideoFile f = false →
        classify f = .ignored)
    ∧ (∀ (env : Env) (mid : Int) (root f : String),
        classify f = .ignored → processFile env mid root f = none)
    ∧ (∀ (env : Env) (mid : Int) (root f : String), classify f = .photo →
        processFile env mid root f =
          (extract_gps_metadata_from_photo (env.readPhoto (root ++ "/" ++ f))).map
            (fun m => ⟨root ++ "/" ++ f, f, "photo", m.1, m.2.1, m.2.2, mid⟩))
    ∧ (∀ (env : Env) (mid : Int) (root f : String), classify f = .video →
        processFile env mid root f =
          (extract_gps_metadata_from_video (env.probeVideo (root ++ "/" ++ f))).map
            (fun m => ⟨root ++ "/" ++ f, f, "video", m.1, m.2.1, m.2.2, mid⟩)) := by
  refine ⟨?_, ?_, ?_, ?_, ?_, ?_⟩
  · intro f h
    simp [classify, h]
  · intro f h
    simp [classify, h, video_not_photo f h]
  · intro f h1 h2
    simp [classify, h1, h2]
  · intro env mid root f h
    simp [processFile, h]
  · intro env mid root f h
    cases he : extract_gps_metadata_from_photo (env.readPhoto (root ++ "/" ++ f)) with
    | none => simp [processFile, h, he]
    | some m =>
      obtain ⟨la, lo, al⟩ := m
      simp [processFile, h, he]
  · intro env mid root f h
    cases he : extract_gps_metadata_from_video (env.probeVideo (root ++ "/" ++ f)) with
    | none => simp [processFile, h, he]
    | some m =>
      obtain ⟨la, lo, al⟩ := m
      simp [processFile, h, he]

/-- Witness for C7: one concrete name of each class. -/
theorem walker_classifies_witness :
    classify ("a.JPG") = .photo ∧ classify ("b.mov") = .video
      ∧ classify ("c.txt") = .ignored :=
  ⟨walker_classifies_and_dispatches.1 ("a.JPG") (by decide),
   walker_classifies_and_dispatches.2.1 ("b.mov") (by decide),
   walker_classifies_and_dispatches.2.2.1 ("c.txt") (by decide) (by decide)⟩

/-! ### Claims about the orchestrator and persistence -/

/-- Claim C8: `process_all` processes exactly the listed entries that are
directories whose name starts with the literal "Mission"; every other
entry is skipped. -/
theorem orchestrator_mission_filter :
    (∀ (entries : List DirEntry) (e : DirEntry), e ∈ entries →
      (e ∈ missionEntries entries ↔
        e.isDir = true ∧ pyStartsWith e.name ("Mission") = true))
    ∧ ∀ (env : Env) (base : String) (db : DB),
        process_all env base db =
          runMissions env base (missionEntries (env.listdir base)) db := by
  constructor
  · intro entries e he
    simp [missionEntries, List.mem_filter, he]
  · intro env base db
    rfl

/-- Witness for C8: a "Mission"-prefixed directory is kept, another
directory is skipped. -/
theorem orchestrator_mission_filter_witness :
    ((⟨"Mission1", true⟩ : DirEntry) ∈ missionEntries
        [⟨"Mission1", true⟩, ⟨"Other", true⟩])
    ∧ ((⟨"Other", true⟩ : DirEntry) ∉ missionEntries
        [⟨"Mission1", true⟩, ⟨"Other", true⟩]) := by
  constructor
  · exact (orchestrator_mission_filter.1 _ _ (by simp)).mpr ⟨rfl, by decide⟩
  · intro hc
    have h := (orchestrator_mission_filter.1 _ ⟨"Other", true⟩ (by simp)).mp hc
    exact absurd h.2 (by decide)

/-- Claim C9: a mission whose accumulated record list is empty issues no
insert statement and leaves the table unchanged. -/
theorem empty_mission_no_statement (env : Env) (db : DB) (name path : String)
    (mid : Int)
    (h1 : lookupMission db.missoes name = some mid)
    (h2 : missionData env mid path = []) :
    process_mission_media env db name path = .ok (db, 0) := by
  simp [process_mission_media, h1, h2]

/-- An environment whose walks find nothing, for witnesses. -/
def envE : Env :=
  ⟨fun _ => .error ("unreadable"), fun _ => .error ("unreadable"),
   fun _ => [], fun _ => []⟩

/-- A database with one mission and an empty media table, for witnesses. -/
def dbW : DB := ⟨[(1, "Mission1")], []⟩

/-- Witness for C9 at a concrete empty mission. -/
theorem empty_mission_no_statement_witness :
    process_mission_media envE dbW ("Mission1") "base/Mission1" = .ok (dbW, 0) :=
  empty_mission_no_statement envE dbW ("Mission1") "base/Mission1" 1 rfl rfl

/-! ### Conflict-skip insert lemmas -/

theorem pathPresent_insertRow (t : List Row) (r : Row) (p : String)
    (h : pathPresent t p = true) : pathPresent (insertRow t r) p = true := by
  unfold insertRow
  split
  · exact h
  · simp only [pathPresent, List.any_append] at h ⊢
    simp [h]

theorem insertRow_present_self (t : List Row) (r : Row) :
    pathPresent (insertRow t r) r.full_path = true := by
  unfold insertRow
  split
  case isTrue h => exact h
  case isFalse h =>
    simp [pathPresent, List.any_append]

theorem insertRow_of_present (t : List Row) (r : Row)
    (h : pathPresent t r.full_path = true) : insertRow t r = t := by
  simp [insertRow, h]

theorem pathPresent_insertRows (rs : List Row) :
    ∀ (t : List Row) (p : String), pathPresent t p = true →
      pathPresent (insertRows t rs) p = true := by
  induction rs with
  | nil => intro t p h; exact h
  | cons r rs ih =>
    intro t p h
    rw [insertRows, List.foldl_cons]
    exact ih (insertRow t r) p (pathPresent_insertRow t r p h)

theorem insertRows_mem_present (rs : List Row) :
    ∀ (t : List Row) (r : Row), r ∈ rs →
      pathPresent (insertRows t rs) r.full_path = true := by
  induction rs with
  | nil => intro t r h; cases h
  | cons a rs ih =>
    intro t r hmem
    rw [insertRows, List.foldl_cons]
    rcases List.mem_cons.mp hmem with rfl | htail
    · exact pathPresent_insertRows rs _ _ (insertRow_present_self t r)
    · exact ih (insertRow t a) r htail

theorem insertRows_of_all_present (rs : List Row) :
    ∀ t : List Row, (∀ r ∈ rs, pathPresent t r.full_path = true) →
      insertRows t rs = t := by
  induction rs with
  | nil => intro t _; rfl
  | cons a rs ih =>
    intro t h
    rw [insertRows, List.foldl_cons, insertRow_of_present t a (h a (by simp))]
    exact ih t (fun r hr => h r (by simp [hr]))

/-! ### `process_mission_media` and mission-loop lemmas -/

/-- A failed mission lookup raises, before any extraction or insert. -/
theorem pmm_not_found (env : Env) (db : DB) (name path : String)
    (h : lookupMission db.missoes name = none) :
    process_mission_media env db name path =
      .error ("Mission " ++ name ++ " not found in the missoes table.") := by
  simp [process_mission_media, h]

/-- Shape of every successful `process_mission_media` run. -/
theorem pmm_ok_spec (env : Env) (db db1 : DB) (name path : String) (k : ℕ)
    (h : process_mission_media env db name path = .ok (db1, k)) :
    ∃ mid, lookupMission db.missoes name = some mid
      ∧ db1.missoes = db.missoes
      ∧ db1.drone_mission =
          insertRows db.drone_mission ((missionData env mid path).map toRow) := by
  unfold process_mission_media at h
  split at h
  · cases h
  case h_2 mid heq =>
    refine ⟨mid, heq, ?_⟩
    split at h
    case isTrue hd =>
      cases h
      rw [List.isEmpty_iff] at hd
      rw [hd]
      simp [insertRows]
    case isFalse hd =>
      cases h
      exact ⟨rfl, rfl⟩

/-- A successful run from a state whose table already holds every path of
the mission's data leaves the state unchanged (and still succeeds). -/
theorem pmm_rerun (env : Env) (db : DB) (name path : String) (mid : Int)
    (hl : lookupMission db.missoes name = some mid)
    (hall : ∀ r ∈ (missionData env mid path).map toRow,
      pathPresent db.drone_mission r.full_path = true) :
    ∃ k, process_mission_media env db name path = .ok (db, k) := by
  simp only [process_mission_media, hl]
  split
  · exact ⟨0, rfl⟩
  · refine ⟨1, ?_⟩
    rw [insertRows_of_all_present _ _ hall]

theorem missionStep_ok (env : Env) (base : String) (db db1 : DB) (e : DirEntry)
    (h : missionStep env base db e = .ok db1) :
    ∃ k, process_mission_media env db e.name (base ++ "/" ++ e.name) = .ok (db1, k) := by
  unfold missionStep at h
  cases hp : process_mission_media env db e.name (base ++ "/" ++ e.name) with
  | error m =>
    rw [hp] at h
    simp [Except.map] at h
  | ok p =>
    rw [hp] at h
    obtain ⟨d, k⟩ := p
    simp only [Except.map, Except.ok.injEq] at h
    subst h
    exact ⟨k, rfl⟩

theorem missionStep_of_pmm (env : Env) (base : String) (db db1 : DB)
    (e : DirEntry) (k : ℕ)
    (h : process_mission_media env db e.name (base ++ "/" ++ e.name) = .ok (db1, k)) :
    missionStep env base db e = .ok db1 := by
  unfold missionStep
  rw [h]
  rfl

theorem missionStep_of_pmm_err (env : Env) (base : String) (db : DB)
    (e : DirEntry) (m : String)
    (h : process_mission_media env db e.name (base ++ "/" ++ e.name) = .error m) :
    missionStep env base db e = .error m := by
  unfold missionStep
  rw [h]
  rfl

theorem runMissions_nil (env : Env) (base : String) (db : DB) :
    runMissions env base [] db = .ok db := rfl

theorem runMissions_cons (env : Env) (base : String) (e : DirEntry)
    (es : List DirEntry) (db : DB) :
    runMissions env base (e :: es) db =
      match missionStep env base db e with
      | .error msg => .error msg
      | .ok db1 => runMissions env base es db1 := by
  rw [runMissions, List.foldlM_cons]
  cases missionStep env base db e <;> rfl

theorem runMissions_missoes (env : Env) (base : String) (es : List DirEntry) :
    ∀ db db1 : DB, runMissions env base es db = .ok db1 →
      db1.missoes = db.missoes := by
  induction es with
  | nil => intro db db1 h; cases h; rfl
  | cons e es ih =>
    intro db db1 h
    rw [runMissions_cons] at h
    cases hs : missionStep env base db e with
    | error m => rw [hs] at h; cases h
    | ok dbA =>
      rw [hs] at h
      obtain ⟨k, hp⟩ := missionStep_ok env base db dbA e hs
      obtain ⟨mid, _, hm, _⟩ := pmm_ok_spec env db dbA e.name _ k hp
      rw [ih dbA db1 h, hm]

theorem runMissions_present (env : Env) (base : String) (es : List DirEntry) :
    ∀ (db db1 : DB) (p : String), runMissions env base es db = .ok db1 →
      pathPresent db.drone_mission p = true →
      pathPresent db1.drone_mission p = true := by
  induction es with
  | nil => intro db db1 p h hp; cases h; exact hp
  | cons e es ih =>
    intro db db1 p h hp
    rw [runMissions_cons] at h
    cases hs : missionStep env base db e with
    | error m => rw [hs] at h; cases h
    | ok dbA =>
      rw [hs] at h
      obtain ⟨k, hpmm⟩ := missionStep_ok env base db dbA e hs
      obtain ⟨mid, _, _, htab⟩ := pmm_ok_spec env db dbA e.name _ k hpmm
      refine ih dbA db1 p h ?_
      rw [htab]
      exact pathPresent_insertRows _ _ _ hp

/-- A mission whose lookup fails aborts the whole loop. -/
theorem runMissions_error_of_lookup_none (env : Env) (base : String)
    (es : List DirEntry) :
    ∀ (db : DB) (e : DirEntry), e ∈ es →
      lookupMission db.missoes e.name = none →
      ∃ msg, runMissions env base es db = .error msg := by
  induction es with
  | nil => intro db e h; cases h
  | cons a es ih =>
    intro db e hmem hlook
    rw [runMissions_cons]
    rcases List.mem_cons.mp hmem with rfl | htail
    · refine ⟨"Mission " ++ e.name ++ " not found in the missoes table.", ?_⟩
      rw [missionStep_of_pmm_err env base db e _
        (pmm_not_found env db e.name (base ++ "/" ++ e.name) hlook)]
    · cases hs : missionStep env base db a with
      | error m => exact ⟨m, rfl⟩
      | ok dbA =>
        obtain ⟨k, hpmm⟩ := missionStep_ok env base db dbA a hs
        obtain ⟨mid, _, hm, _⟩ := pmm_ok_spec env db dbA a.name _ k hpmm
        obtain ⟨msg, hrun⟩ := ih dbA e htail (by rw [hm]; exact hlook)
        exact ⟨msg, hrun⟩

/-- Re-running the mission loop from its own result is the identity. -/
theorem runMissions_idem (env : Env) (base : String) (es : List DirEntry) :
    ∀ db db1 : DB, runMissions env base es db = .ok db1 →
      runMissions env base es db1 = .ok db1 := by
  induction es with
  | nil => intro db db1 h; cases h; rfl
  | cons e es ih =>
    intro db db1 h
    rw [runMissions_cons] at h
    cases hs : missionStep env base db e with
    | error m => rw [hs] at h; cases h
    | ok dbA =>
      rw [hs] at h
      obtain ⟨k, hpmm⟩ := missionStep_ok env base db dbA e hs
      obtain ⟨mid, hl, hm, htab⟩ := pmm_ok_spec env db dbA e.name _ k hpmm
      have hm1 : db1.missoes = db.missoes := by
        rw [runMissions_missoes env base es dbA db1 h, hm]
      have hl1 : lookupMission db1.missoes e.name = some mid := by
        rw [hm1]; exact hl
      have hall : ∀ r ∈ (missionData env mid (base ++ "/" ++ e.name)).map toRow,
          pathPresent db1.drone_mission r.full_path = true := by
        intro r hr
        refine runMissions_present env base es dbA db1 r.full_path h ?_
        rw [htab]
        exact insertRows_mem_present _ _ r hr
      obtain ⟨k2, hstep2⟩ := pmm_rerun env db1 e.name (base ++ "/" ++ e.name) mid hl1 hall
      rw [runMissions_cons, missionStep_of_pmm env base db1 db1 e k2 hstep2]
      exact ih dbA db1 h

/-! ### Claims C4 and C3 -/

/-- Claim C4: a mission name absent from the `missoes` table makes
`process_mission_media` raise a distinguishable mission-not-found error
before any extraction or insert (the state is untouched), and since the
per-mission loop does not catch it, the entire `process_all` run aborts. -/
theorem mission_not_found_aborts :
    (∀ (env : Env) (db : DB) (name path : String),
      lookupMission db.missoes name = none →
      process_mission_media env db name path =
        .error ("Mission " ++ name ++ " not found in the missoes table."))
    ∧ ∀ (env : Env) (base : String) (db : DB) (e : DirEntry),
        e ∈ missionEntries (env.listdir base) →
        lookupMission db.missoes e.name = none →
        ∃ msg, process_all env base db = .error msg := by
  constructor
  · exact pmm_not_found
  · intro env base db e hmem hlook
    exact runMissions_error_of_lookup_none env base _ db e hmem hlook

/-- An environment listing one mission directory with no media, for
witnesses. -/
def envM : Env :=
  ⟨fun _ => .error ("unreadable"), fun _ => .error ("unreadable"),
   fun _ => [], fun _ => [⟨"Mission1", true⟩]⟩

/-- A database whose `missoes` table is empty, for witnesses. -/
def dbNoMissions : DB := ⟨[], []⟩

/-- Witness for C4: unknown mission name errors and aborts the run. -/
theorem mission_not_found_aborts_witness :
    process_mission_media envM dbNoMissions ("Mission1") "b/Mission1" =
      .error ("Mission " ++ "Mission1" ++ " not found in the missoes table.")
    ∧ ∃ msg, process_all envM ("b") dbNoMissions = .error msg :=
  ⟨mission_not_found_aborts.1 envM dbNoMissions ("Mission1") "b/Mission1" rfl,
   mission_not_found_aborts.2 envM ("b") dbNoMissions ⟨"Mission1", true⟩
     (by decide) rfl⟩

/-- Claim C3: a record whose `full_path` already exists is silently
dropped (never updated, never an error), so re-running the whole pipeline
over an unchanged folder and state reproduces exactly the same table: the
second run succeeds and returns the first run's state unchanged. -/
theorem rerun_is_idempotent :
    (∀ (t : List Row) (r : Row), pathPresent t r.full_path = true →
      insertRow t r = t)
    ∧ ∀ (env : Env) (base : String) (db db1 : DB),
        process_all env base db = .ok db1 →
        process_all env base db1 = .ok db1 := by
  refine ⟨insertRow_of_present, ?_⟩
  intro env base db db1 h
  exact runMissions_idem env base _ db db1 h

/-- A concrete row, for witnesses. -/
def rowW : Row := ⟨"b/Mission1/a.jpg", "a.jpg", "photo", none, (0, 0), 1⟩

/-- Witness for C3: a duplicate-path insert is dropped, and re-running an
(empty) pipeline run is the identity. -/
theorem rerun_is_idempotent_witness :
    insertRow [rowW] rowW = [rowW]
    ∧ process_all envE ("b") dbW = .ok dbW :=
  ⟨rerun_is_idempotent.1 [rowW] rowW (by decide),
   rerun_is_idempotent.2 envE ("b") dbW dbW rfl⟩

/-! ### Claim C10: exact shape of the accepted location strings -/

/-- `l` has exactly the shape of one `[+-]\d+\.\d+` group. -/
def IsSignedDecimalStr (l : List Char) : Prop :=
  ∃ (c : Char) (d1 d2 : List Char),
    (c = '+' ∨ c = '-') ∧ d1 ≠ [] ∧ d2 ≠ [] ∧
    (∀ x ∈ d1, x.isDigit = true) ∧ (∀ x ∈ d2, x.isDigit = true) ∧
    l = c :: (d1 ++ '.' :: d2)

theorem takeDigits_append (d : List Char) :
    ∀ r : List Char, (∀ c ∈ d, c.isDigit = true) →
      (∀ c, r.head? = some c → c.isDigit = false) →
      takeDigits (d ++ r) = (d, r) := by
  induction d with
  | nil =>
    intro r _ hr
    cases r with
    | nil => rfl
    | cons c cs =>
      have hc : c.isDigit = false := hr c rfl
      simp [takeDigits, hc]
  | cons a d ih =>
    intro r hd hr
    have ha : a.isDigit = true := hd a (by simp)
    have hd1 : ∀ c ∈ d, c.isDigit = true := fun c hc => hd c (by simp [hc])
    simp [takeDigits, ha, ih r hd1 hr]

theorem takeDigits_sound (s : List Char) :
    s = (takeDigits s).1 ++ (takeDigits s).2
      ∧ ∀ c ∈ (takeDigits s).1, c.isDigit = true := by
  induction s with
  | nil => exact ⟨rfl, by simp [takeDigits]⟩
  | cons c cs ih =>
    by_cases hc : c.isDigit
    · refine ⟨?_, ?_⟩
      · simp only [takeDigits, hc, if_true, List.cons_append]
        rw [← ih.1]
      · simp only [takeDigits, hc, if_true]
        intro x hx
        rcases List.mem_cons.mp hx with rfl | hx
        · exact hc
        · exact ih.2 x hx
    · simp [takeDigits, hc]

theorem takeDigits_cons_digit (c : Char) (l : List Char) (hc : c.isDigit = true) :
    (takeDigits (c :: l)).1 ≠ [] := by
  simp [takeDigits, hc]

/-- Soundness: a successful group parse consumes exactly one
`[+-]\d+\.\d+`-shaped chunk. -/
theorem parseSignedDecimal_sound (s : List Char) (q : ℚ) (r : List Char)
    (h : parseSignedDecimal s = some (q, r)) :
    ∃ l1, IsSignedDecimalStr l1 ∧ s = l1 ++ r := by
  unfold parseSignedDecimal at h
  split at h
  · cases h
  case h_2 c cs =>
    split at h
    case isFalse => cases h
    case isTrue hc =>
      split at h
      case isTrue => cases h
      case isFalse h1 =>
        split at h
        case h_2 hne => cases h
        case h_1 r2 heq =>
          split at h
          case isTrue => cases h
          case isFalse h2 =>
            cases h
            refine ⟨c :: ((takeDigits cs).1 ++ '.' :: (takeDigits r2).1),
              ⟨c, (takeDigits cs).1, (takeDigits r2).1, hc, h1, h2,
                (takeDigits_sound cs).2, (takeDigits_sound r2).2, rfl⟩, ?_⟩
            rw [List.cons_append]
            congr 1
            rw [List.append_assoc, List.cons_append, ← (takeDigits_sound r2).1]
            conv_lhs => rw [(takeDigits_sound cs).1]
            rw [heq]

/-- Completeness, exact-rest form: used for the first group, whose rest
starts with the second group's sign character. -/
theorem parseSignedDecimal_complete (c : Char) (d1 d2 r : List Char)
    (hc : c = '+' ∨ c = '-') (h1 : d1 ≠ []) (h2 : d2 ≠ [])
    (hd1 : ∀ x ∈ d1, x.isDigit = true) (hd2 : ∀ x ∈ d2, x.isDigit = true)
    (hr : ∀ x, r.head? = some x → x.isDigit = false) :
    ∃ q, parseSignedDecimal (c :: (d1 ++ '.' :: d2) ++ r) = some (q, r) := by
  have hdot : ∀ x : Char, ('.' :: (d2 ++ r)).head? = some x → x.isDigit = false := by
    intro x hx
    cases hx
    decide
  have e1 : takeDigits (d1 ++ '.' :: (d2 ++ r)) = (d1, '.' :: (d2 ++ r)) :=
    takeDigits_append d1 _ hd1 hdot
  have e2 : takeDigits (d2 ++ r) = (d2, r) := takeDigits_append d2 r hd2 hr
  have hs : c :: (d1 ++ '.' :: d2) ++ r = c :: (d1 ++ '.' :: (d2 ++ r)) := by
    simp
  rw [hs]
  refine ⟨if c = '-' then -decValue d1 d2 else decValue d1 d2, ?_⟩
  simp only [parseSignedDecimal, e1, e2, if_pos hc, if_neg h1, if_neg h2]

/-- Completeness, arbitrary-rest form: used for the second group, whose
trailing characters may begin with more digits. -/
theorem parseSignedDecimal_complete2 (c : Char) (d1 d2 r : List Char)
    (hc : c = '+' ∨ c = '-') (h1 : d1 ≠ []) (h2 : d2 ≠ [])
    (hd1 : ∀ x ∈ d1, x.isDigit = true) (hd2 : ∀ x ∈ d2, x.isDigit = true) :
    (parseSignedDecimal (c :: (d1 ++ '.' :: d2) ++ r)).isSome = true := by
  have hdot : ∀ x : Char, ('.' :: (d2 ++ r)).head? = some x → x.isDigit = false := by
    intro x hx
    cases hx
    decide
  have e1 : takeDigits (d1 ++ '.' :: (d2 ++ r)) = (d1, '.' :: (d2 ++ r)) :=
    takeDigits_append d1 _ hd1 hdot
  have hne : (takeDigits (d2 ++ r)).1 ≠ [] := by
    cases d2 with
    | nil => exact absurd rfl h2
    | cons b d2t =>
      exact takeDigits_cons_digit b (d2t ++ r) (hd2 b (by simp))
  have hs : c :: (d1 ++ '.' :: d2) ++ r = c :: (d1 ++ '.' :: (d2 ++ r)) := by
    simp
  rw [hs]
  simp only [parseSignedDecimal, e1, if_pos hc, if_neg h1, if_neg hne,
    Option.isSome_some]

theorem matchLocation_none (s : List Char) (h : parseSignedDecimal s = none) :
    matchLocation s = none := by
  unfold matchLocation
  rw [h]

theorem matchLocation_some (s : List Char) (v1 : ℚ) (r1 : List Char)
    (h : parseSignedDecimal s = some (v1, r1)) :
    matchLocation s =
      match parseSignedDecimal r1 with
      | none => none
      | some (v2, _) => some (v1, v2) := by
  unfold matchLocation
  rw [h]

/-- Claim C10: the location parse succeeds exactly on strings beginning
with two consecutive `[+-]\d+\.\d+` groups; trailing characters (such as
an altitude/terminator suffix) are ignored and still yield the latitude
and longitude of the two groups, while a missing decimal point or missing
leading sign makes the parse fail. -/
theorem location_pattern_characterization :
    (∀ s : List Char, (matchLocation s).isSome = true ↔
      ∃ l1 l2 rest, IsSignedDecimalStr l1 ∧ IsSignedDecimalStr l2
        ∧ s = l1 ++ l2 ++ rest)
    ∧ matchLocation ("+40.1234-008.5678+100.000/").data =
        some (401234 / 10000, -(85678 / 10000))
    ∧ matchLocation ("+40-008").data = none
    ∧ matchLocation ("40.1234-008.5678").data = none := by
  have hsuffix : matchLocation ("+40.1234-008.5678+100.000/").data =
      some (decValue ['4', '0'] ['1', '2', '3', '4'],
            -decValue ['0', '0', '8'] ['5', '6', '7', '8']) := rfl
  refine ⟨?_, by rw [hsuffix, decValue_40_1234, decValue_008_5678], by decide, by decide⟩
  intro s
  constructor
  · intro h
    rw [Option.isSome_iff_exists] at h
    obtain ⟨p, hp⟩ := h
    cases h1 : parseSignedDecimal s with
    | none =>
      rw [matchLocation_none s h1] at hp
      cases hp
    | some q1 =>
      obtain ⟨v1, r1⟩ := q1
      cases h2 : parseSignedDecimal r1 with
      | none =>
        rw [matchLocation_some s v1 r1 h1, h2] at hp
        cases hp
      | some q2 =>
        obtain ⟨v2, r2⟩ := q2
        obtain ⟨l1, hl1, hs1⟩ := parseSignedDecimal_sound s v1 r1 h1
        obtain ⟨l2, hl2, hs2⟩ := parseSignedDecimal_sound r1 v2 r2 h2
        exact ⟨l1, l2, r2, hl1, hl2, by rw [hs1, hs2, List.append_assoc]⟩
  · intro h
    obtain ⟨l1, l2, rest, hl1, hl2, hs⟩ := h
    obtain ⟨c, d1, d2, hc, h1, h2, hd1, hd2, hshape⟩ := hl1
    obtain ⟨c', d1', d2', hc', h1', h2', hd1', hd2', hshape'⟩ := hl2
    have hr : ∀ x, (l2 ++ rest).head? = some x → x.isDigit = false := by
      intro x hx
      rw [hshape'] at hx
      cases hx
      rcases hc' with rfl | rfl <;> decide
    have hsplit : s = c :: (d1 ++ '.' :: d2) ++ (l2 ++ rest) := by
      rw [hs, hshape, List.append_assoc]
    obtain ⟨q1, hq1⟩ :=
      parseSignedDecimal_complete c d1 d2 (l2 ++ rest) hc h1 h2 hd1 hd2 hr
    have hq2 : (parseSignedDecimal (l2 ++ rest)).isSome = true := by
      rw [hshape', List.cons_append]
      exact parseSignedDecimal_complete2 c' d1' d2' rest hc' h1' h2' hd1' hd2'
    rw [Option.isSome_iff_exists] at hq2
    obtain ⟨p2, hp2⟩ := hq2
    obtain ⟨v2, r2⟩ := p2
    rw [hsplit, matchLocation_some _ q1 (l2 ++ rest) hq1, hp2]
    rfl

/-- Witness for C10: the canonical tag string decomposes as two signed
decimal groups. -/
theorem location_pattern_characterization_witness :
    ∃ l1 l2 rest, IsSignedDecimalStr l1 ∧ IsSignedDecimalStr l2
      ∧ ("+40.1234-008.5678").data = l1 ++ l2 ++ rest :=
  (location_pattern_characterization.1 ("+40.1234-008.5678").data).mp rfl

end SGDB
